import Mathlib

/-!
Shallow embedding of `ra-dataprovider-middleware` (src/main.ts).

The library exports a single function `applyMiddlewares(dataProvider, middlewares)`
that wraps a data provider in a JavaScript `Proxy`.  The `get` trap of that proxy
always returns a fresh function `(...args) => { ... }`; when that function is
called with a non-string property key it calls `target[prop](...args)` directly,
and for a string key `method` it builds, per call,

  invokeChain = middlewaresToApply.reduceRight(
    (next, middleware) => () => middleware(next, ...args),
    (...args) => target[method](...args))

and returns `invokeChain(method, ...args)`.

We embed this faithfully:
  * promise results are flattened into `Except` values (`JSResult`);
  * a property of the provider is a `JSValue`: a function, a plain value, or
    `undefined`; calling a non-function throws a `TypeError` (`JSError.typeError`);
  * the untyped JavaScript argument universe is a type parameter `α`, together
    with an embedding `strVal : String → α` used where the code passes the
    method-name string as an ordinary argument (`invokeChain(method, ...args)`);
  * `reduceRight` with the `() => ...` closures becomes `List.foldr` with
    wrappers `fun _ => middleware next args` that ignore the argument they are
    applied to and close over the original `args`, exactly as in the source;
  * the terminal step `(...args) => target[method](...args)` shadows `args` and
    uses the arguments it is applied to.
-/

/-- Property keys of a JavaScript object: string keys or symbols (modelled by
numeric identity). -/
inductive PropKey where
  | str (s : String)
  | sym (id : Nat)

/-- Errors observable by a caller: the `TypeError` raised by calling a value
that is not a function, or an error value thrown / a rejection produced by a
middleware or by the base provider. -/
inductive JSError (ε : Type) where
  | typeError
  | user (e : ε)

/-- The flattened outcome of a call: a resolved value or a raised/rejected
error. -/
abbrev JSResult (ε ρ : Type) := Except (JSError ε) ρ

/-- A JavaScript value stored at a property of the provider: a function from an
argument list to a result, a plain (non-function) value, or `undefined`. -/
inductive JSValue (α ε ρ : Type) where
  | fn (f : List α → JSResult ε ρ)
  | val (v : α)
  | undef

/-- Whether a `JSValue` is a function. -/
def JSValue.isFn {α ε ρ : Type} : JSValue α ε ρ → Bool
  | .fn _ => true
  | _ => false

/-- Calling a `JSValue` as a function: `f(...args)` for functions, a
`TypeError` otherwise (calling `undefined` or a plain value). -/
def callJS {α ε ρ : Type} : JSValue α ε ρ → List α → JSResult ε ρ
  | .fn f, args => f args
  | _, _ => .error .typeError

/-- The base data provider: an object with string-keyed and symbol-keyed
properties (`target[prop]`). -/
structure DataProvider (α ε ρ : Type) where
  strProp : String → JSValue α ε ρ
  symProp : Nat → JSValue α ε ρ

/-- A middleware: receives `next` and the argument list and produces a result
(source type `DataProviderMethodMiddleware`). -/
def DataProviderMethodMiddleware (α ε ρ : Type) :=
  (List α → JSResult ε ρ) → List α → JSResult ε ρ

/-- The middleware registry: maps an operation name to an optional ordered
list of middlewares (source type `DataProviderMiddlewares`; an absent entry is
`none`, read back with `?? []`). -/
def DataProviderMiddlewares (α ε ρ : Type) :=
  String → Option (List (DataProviderMethodMiddleware α ε ρ))

/-- The per-call chain built by `reduceRight` in the source: each wrapper
`() => middleware(next, ...args)` ignores the arguments it is applied to and
closes over the original `args`; the initial value is the terminal step
`(...args) => target[method](...args)`, which uses the arguments it is applied
to. -/
def invokeChain {α ε ρ : Type} (dp : DataProvider α ε ρ) (method : String)
    (middlewaresToApply : List (DataProviderMethodMiddleware α ε ρ))
    (args : List α) : List α → JSResult ε ρ :=
  middlewaresToApply.foldr
    (fun middleware next => fun _ => middleware next args)
    (fun args2 => callJS (dp.strProp method) args2)

/-- The wrapped provider: `applyMiddlewares dataProvider middlewares` maps each
property access `prop` to the value the proxy's `get` trap returns for it.  The
trap always returns a function; its body forwards non-string keys to
`target[prop](...args)` and dispatches string keys through the middleware chain,
invoking the folded chain with `(method, ...args)`. -/
def applyMiddlewares {α ε ρ : Type} (strVal : String → α)
    (dataProvider : DataProvider α ε ρ)
    (middlewares : DataProviderMiddlewares α ε ρ) : PropKey → JSValue α ε ρ :=
  fun prop => .fn (fun args =>
    match prop with
    | .sym n => callJS (dataProvider.symProp n) args
    | .str method =>
        invokeChain dataProvider method ((middlewares method).getD []) args
          (strVal method :: args))

/-- Calling the wrapped provider's method `method` with arguments `args`:
access the property on the proxy and call the returned function. -/
def dispatch {α ε ρ : Type} (strVal : String → α) (dp : DataProvider α ε ρ)
    (mws : DataProviderMiddlewares α ε ρ) (method : String) (args : List α) :
    JSResult ε ρ :=
  callJS (applyMiddlewares strVal dp mws (.str method)) args

/-- A registry that configures the list `ms` for every operation name. -/
def regAll {α ε ρ : Type} (ms : List (DataProviderMethodMiddleware α ε ρ)) :
    DataProviderMiddlewares α ε ρ :=
  fun _ => some ms

/-- A middleware that calls `next` with exactly the arguments it received. -/
def passThru {α ε ρ : Type} : DataProviderMethodMiddleware α ε ρ :=
  fun next as => next as

/-- A middleware that resolves with its own received argument list and never
calls `next` (used to observe which arguments a middleware is invoked with). -/
def echoMw {α ε : Type} : DataProviderMethodMiddleware α ε (List α) :=
  fun _next as => Except.ok as

/-- A middleware that calls `next` with rewritten arguments `f as` and returns
its result. -/
def rewriteMw {α ε ρ : Type} (f : List α → List α) :
    DataProviderMethodMiddleware α ε ρ :=
  fun next as => next (f as)

/-- A base provider (over string arguments) whose every string-keyed method
resolves with the argument list it was invoked with. -/
def echoProvider : DataProvider String Unit (List String) :=
  ⟨fun _ => .fn (fun as => Except.ok as), fun _ => .undef⟩

/-- Claim C1 evidence: with an empty or absent middleware list the folded chain
is just the terminal step, so the call `invokeChain(method, ...args)` reaches
the base method with the method name prepended to the caller's arguments.
Concretely, `wrapped.getList("posts")` invokes the base `getList` with
`("getList", "posts")`, not with `("posts")`. -/
theorem emptyChain_prepends_method {α ε ρ : Type} (strVal : String → α)
    (dp : DataProvider α ε ρ) (method : String) (args : List α) :
    dispatch strVal dp (fun _ => none) method args
        = callJS (dp.strProp method) (strVal method :: args)
      ∧ dispatch id echoProvider (fun _ => none) "getList" ["posts"]
        = Except.ok ["getList", "posts"]
      ∧ dispatch id echoProvider (fun _ => none) "getList" ["posts"]
        ≠ Except.ok ["posts"] := by
  refine ⟨rfl, rfl, fun h => ?_⟩
  exact absurd (Except.ok.inj h) (by decide)

/-- Claim C2 counterexample: a middleware that resolves with the argument list
it received shows that, for `wrapped.getList("posts")`, the (first, outermost)
middleware is invoked with `("posts")` only — the operation name is not part of
its argument list, because the wrapper closures built by `reduceRight` ignore
the arguments the chain is invoked with and close over the original `args`. -/
theorem middleware_args_lack_method_name :
    dispatch id echoProvider (regAll [echoMw]) "getList" ["posts"]
        = Except.ok ["posts"]
      ∧ dispatch id echoProvider (regAll [echoMw]) "getList" ["posts"]
        ≠ Except.ok ["getList", "posts"] := by
  refine ⟨rfl, fun h => ?_⟩
  exact absurd (Except.ok.inj h) (by decide)

/-- Claim C2 amended: each invoked middleware receives, after `next`, exactly
the original call arguments, without the operation name; this holds for the
first (outermost) middleware and, when it delegates, for the second as well. -/
theorem middleware_receives_original_args {α ε : Type} (strVal : String → α)
    (dp : DataProvider α ε (List α))
    (ms : List (DataProviderMethodMiddleware α ε (List α)))
    (method : String) (args : List α) :
    dispatch strVal dp (regAll (echoMw :: ms)) method args = Except.ok args
      ∧ dispatch strVal dp (regAll (passThru :: echoMw :: ms)) method args
        = Except.ok args :=
  ⟨rfl, rfl⟩

/-- Claim C3 counterexample: in the chain `[rewriteMw (fun _ => ["X"]),
passThru]` the first middleware calls its `next` with `["X"]`, yet the base
operation runs with the original argument `["posts"]` (forwarded by the second
middleware), not with `["X"]`: the arguments an intermediate middleware passes
to `next` are discarded. -/
theorem rewritten_args_dropped_midchain :
    dispatch id echoProvider
        (regAll [rewriteMw (fun _ => ["X"]), passThru]) "update" ["posts"]
        = Except.ok ["posts"]
      ∧ dispatch id echoProvider
        (regAll [rewriteMw (fun _ => ["X"]), passThru]) "update" ["posts"]
        ≠ Except.ok ["X"] := by
  refine ⟨rfl, fun h => ?_⟩
  exact absurd (Except.ok.inj h) (by decide)

/-- Claim C3 amended: only the last (innermost) middleware's `next`-arguments
reach the base operation.  A sole middleware that rewrites its arguments before
calling `next` results in the base method being called with the rewritten
arguments (so for the `update` example the base receives the augmented
`params.data` while `previousData` is whatever the rewrite left in place); with
a second rewriting middleware downstream, the base receives the downstream
middleware's rewrite of the *original* arguments. -/
theorem rewrite_reaches_base_only_from_last {α ε ρ : Type} (strVal : String → α)
    (dp : DataProvider α ε ρ) (f g : List α → List α) (method : String)
    (args : List α) :
    dispatch strVal dp (regAll [rewriteMw f]) method args
        = callJS (dp.strProp method) (f args)
      ∧ dispatch strVal dp (regAll [rewriteMw f, rewriteMw g]) method args
        = callJS (dp.strProp method) (g args) :=
  ⟨rfl, rfl⟩

/-- Claim C4: for a chain `[m1, m2]` the right-to-left fold makes `m1` the
outermost wrapper: the wrapped call is `m1` applied to a `next` that invokes
`m2`, whose own `next` is the terminal step calling the base method.  If `m1`
does not call its `next` the result does not depend on `m2` or on the provider
(second conjunct), and if `m2` does not call its `next` the result does not
depend on the provider (third conjunct). -/
theorem twoMiddlewares_order {α ε ρ : Type} (strVal : String → α)
    (dp : DataProvider α ε ρ) (m1 m2 : DataProviderMethodMiddleware α ε ρ)
    (method : String) (args : List α) (k : List α → JSResult ε ρ) :
    dispatch strVal dp (regAll [m1, m2]) method args
        = m1 (fun _ => m2 (fun a2 => callJS (dp.strProp method) a2) args) args
      ∧ dispatch strVal dp (regAll [fun _ as => k as, m2]) method args = k args
      ∧ dispatch strVal dp (regAll [passThru, fun _ as => k as]) method args
        = k args :=
  ⟨rfl, rfl, rfl⟩

/-- A middleware that, when its bypass condition holds on the received
arguments, resolves with its own value without calling `next`, and otherwise
calls `next` with the arguments it received. -/
def bypassMw {α ε ρ : Type} (c : List α → Bool) (v : List α → ρ) :
    DataProviderMethodMiddleware α ε ρ :=
  fun next as => cond (c as) (Except.ok (v as)) (next as)

/-- Claim C5: a bypassing middleware short-circuits the chain.  When its
condition holds, the caller receives the middleware's own resolved value and
the rest of the chain — downstream middlewares and the base operation — does
not appear in the result at all; when the condition fails, the chain continues
(for a single-middleware chain, the base method is invoked with the original
arguments). -/
theorem bypass_short_circuits {α ε ρ : Type} (strVal : String → α)
    (dp : DataProvider α ε ρ) (c : List α → Bool) (v : List α → ρ)
    (ms : List (DataProviderMethodMiddleware α ε ρ)) (method : String)
    (args : List α) :
    dispatch strVal dp (regAll (bypassMw c v :: ms)) method args
        = cond (c args) (Except.ok (v args)) (invokeChain dp method ms args args)
      ∧ dispatch strVal dp (regAll [bypassMw c v]) method args
        = cond (c args) (Except.ok (v args)) (callJS (dp.strProp method) args) :=
  ⟨rfl, rfl⟩

/-- A middleware layer that delegates: it calls its `next` (with possibly
rewritten arguments) and returns the result unchanged, adding no handler of its
own. -/
def Delegating {α ε ρ : Type} (m : DataProviderMethodMiddleware α ε ρ) : Prop :=
  ∃ f : List α → List α, m = fun next as => next (f as)

/-- A middleware that throws `e` (rejects) without calling `next`. -/
def throwMw {α ε ρ : Type} (e : ε) : DataProviderMethodMiddleware α ε ρ :=
  fun _next _as => Except.error (.user e)

lemma invokeChain_error_of_base {α ε ρ : Type} (dp : DataProvider α ε ρ)
    (method : String) (args : List α) (e : ε)
    (hbase : ∀ x, callJS (dp.strProp method) x = Except.error (.user e)) :
    ∀ ms : List (DataProviderMethodMiddleware α ε ρ),
      (∀ m ∈ ms, Delegating m) →
      ∀ x, invokeChain dp method ms args x = Except.error (.user e) := by
  intro ms
  induction ms with
  | nil => intro _ x; exact hbase x
  | cons m ms ih =>
      intro hdel x
      obtain ⟨f, hf⟩ := hdel m (List.mem_cons_self m ms)
      show m (invokeChain dp method ms args) args = Except.error (.user e)
      rw [hf]
      exact ih (fun m hm => hdel m (List.mem_cons_of_mem _ hm)) (f args)

lemma invokeChain_error_of_throw {α ε ρ : Type} (dp : DataProvider α ε ρ)
    (method : String) (args : List α) (e : ε)
    (rest : List (DataProviderMethodMiddleware α ε ρ)) :
    ∀ ms : List (DataProviderMethodMiddleware α ε ρ),
      (∀ m ∈ ms, Delegating m) →
      ∀ x, invokeChain dp method (ms ++ throwMw e :: rest) args x
        = Except.error (.user e) := by
  intro ms
  induction ms with
  | nil => intro _ x; rfl
  | cons m ms ih =>
      intro hdel x
      obtain ⟨f, hf⟩ := hdel m (List.mem_cons_self m ms)
      show m (invokeChain dp method (ms ++ throwMw e :: rest) args) args
        = Except.error (.user e)
      rw [hf]
      exact ih (fun m hm => hdel m (List.mem_cons_of_mem _ hm)) (f args)

/-- Claim C6: failures propagate unmodified to the caller.  If the base method
rejects with `e` on every input, a chain of delegating middlewares delivers
exactly `e` to the caller; and if any middleware in the chain throws `e`, the
enclosing delegating layers deliver exactly `e` to the caller, whatever follows
it in the chain and whatever the provider is — the proxy interposes no
catch/rewrap boundary. -/
theorem errors_propagate_unmodified {α ε ρ : Type} (strVal : String → α)
    (method : String) (args : List α) (e : ε) :
    (∀ (dp : DataProvider α ε ρ)
       (ms : List (DataProviderMethodMiddleware α ε ρ)),
       (∀ m ∈ ms, Delegating m) →
       (∀ x, callJS (dp.strProp method) x = Except.error (.user e)) →
       dispatch strVal dp (regAll ms) method args = Except.error (.user e))
    ∧ (∀ (dp : DataProvider α ε ρ)
         (ms rest : List (DataProviderMethodMiddleware α ε ρ)),
         (∀ m ∈ ms, Delegating m) →
         dispatch strVal dp (regAll (ms ++ throwMw e :: rest)) method args
           = Except.error (.user e)) := by
  constructor
  · intro dp ms hdel hbase
    exact invokeChain_error_of_base dp method args e hbase ms hdel
      (strVal method :: args)
  · intro dp ms rest hdel
    exact invokeChain_error_of_throw dp method args e rest ms hdel
      (strVal method :: args)

/-- A base provider whose every string-keyed method rejects with `()`. -/
def rejectingProvider : DataProvider Unit Unit Unit :=
  ⟨fun _ => .fn (fun _ => Except.error (.user ())), fun _ => .undef⟩

/-- Witness for `errors_propagate_unmodified`: through one delegating
middleware, a rejection of the base `update` reaches the caller unchanged, and
a throwing middleware's error reaches the caller unchanged. -/
theorem errors_propagate_unmodified_witness :
    dispatch (fun _ => ()) rejectingProvider (regAll [passThru]) "update" []
        = Except.error (.user ())
      ∧ dispatch (fun _ => ()) rejectingProvider
          (regAll ([passThru] ++ throwMw () :: [])) "update" []
        = Except.error (.user ()) := by
  have h := errors_propagate_unmodified (ρ := Unit) (fun _ => ()) "update" [] ()
  refine ⟨h.1 rejectingProvider [passThru] ?_ (fun x => rfl), h.2 rejectingProvider [passThru] [] ?_⟩
  all_goals
    intro m hm
    rw [List.mem_singleton] at hm
    exact ⟨fun as => as, hm⟩

/-- Claim C7: no eager validation of the registry.  Even when the base provider
has no implementation of `method` (`strProp method = .undef`): accessing the
operation on the wrapped provider still yields a callable; calling it with a
chain whose first middleware bypasses `next` succeeds, so the missing
implementation is never touched; and only when the chain reaches the terminal
step (here: empty registry) does the call fail, with the call-on-non-function
`TypeError`. -/
theorem missing_operation_fails_at_call_time {α ε ρ : Type} (strVal : String → α)
    (dp : DataProvider α ε ρ) (method : String) (args : List α) (v : ρ)
    (ms : List (DataProviderMethodMiddleware α ε ρ))
    (h : dp.strProp method = .undef) :
    (applyMiddlewares strVal dp (regAll ((fun _ _ => Except.ok v) :: ms))
        (.str method)).isFn = true
      ∧ dispatch strVal dp (regAll ((fun _ _ => Except.ok v) :: ms)) method args
        = Except.ok v
      ∧ dispatch strVal dp (fun _ => none) method args
        = Except.error .typeError := by
  refine ⟨rfl, rfl, ?_⟩
  show callJS (dp.strProp method) (strVal method :: args) = Except.error .typeError
  rw [h]
  rfl

/-- A base provider with no properties at all. -/
def undefProvider : DataProvider Unit Unit Unit :=
  ⟨fun _ => .undef, fun _ => .undef⟩

/-- Witness for `missing_operation_fails_at_call_time`, at a provider with no
`getOne` implementation. -/
theorem missing_operation_fails_at_call_time_witness :
    (applyMiddlewares (fun _ => ()) undefProvider
        (regAll ((fun _ _ => Except.ok ()) :: [])) (.str "getOne")).isFn = true
      ∧ dispatch (fun _ => ()) undefProvider
          (regAll ((fun _ _ => Except.ok ()) :: [])) "getOne" [] = Except.ok ()
      ∧ dispatch (fun _ => ()) undefProvider (fun _ => none) "getOne" []
        = Except.error .typeError :=
  missing_operation_fails_at_call_time (fun _ => ()) undefProvider "getOne" []
    () [] rfl

/-- A base provider (over numeric argument values) holding a plain value `42`
at every string property and `7` at every symbol property. -/
def valProvider : DataProvider Nat Unit Unit :=
  ⟨fun _ => .val 42, fun _ => .val 7⟩

/-- Claim C8 counterexample: property accesses on the wrapped provider are not
transparent.  Accessing a string-keyed non-function property, or any
symbol-keyed property, yields a freshly built function, not the original value
stored on the base provider. -/
theorem property_access_not_transparent :
    applyMiddlewares (fun _ => 0) valProvider (fun _ => none) (.str "total")
        ≠ valProvider.strProp "total"
      ∧ applyMiddlewares (fun _ => 0) valProvider (fun _ => none) (.sym 0)
        ≠ valProvider.symProp 0 :=
  ⟨fun h => (nomatch h), fun h => (nomatch h)⟩

/-- Claim C8 amended: every property access on the wrapped provider yields a
function.  Calling the one obtained from a non-string (symbol) key invokes the
base provider's own property at that key as a function with the given
arguments; calling the one obtained from a string key dispatches through the
chain-building logic.  Non-function properties are therefore not returned
directly: their value is only reached as a call target. -/
theorem wrapped_access_semantics {α ε ρ : Type} (strVal : String → α)
    (dp : DataProvider α ε ρ) (mws : DataProviderMiddlewares α ε ρ)
    (prop : PropKey) (n : Nat) (s : String) (args : List α) :
    (applyMiddlewares strVal dp mws prop).isFn = true
      ∧ callJS (applyMiddlewares strVal dp mws (.sym n)) args
        = callJS (dp.symProp n) args
      ∧ callJS (applyMiddlewares strVal dp mws (.str s)) args
        = dispatch strVal dp mws s args :=
  ⟨rfl, rfl, rfl⟩

/-- A middleware that calls `next` with the arguments it received and adds one
to the resolved value (used to count how many chain layers actually ran). -/
def countMw {α ε : Type} : DataProviderMethodMiddleware α ε Nat :=
  fun next as => (next as).map (fun n => n + 1)

/-- A base provider whose every string-keyed method resolves with the constant
`r`. -/
def constProvider {α ε ρ : Type} (r : ρ) : DataProvider α ε ρ :=
  ⟨fun _ => .fn (fun _ => Except.ok r), fun _ => .undef⟩

/-- Claim C9: registering the same middleware twice for one operation makes one
call run it twice, the first occurrence wrapping the second.  Structurally, the
chain `[m, m]` applies `m` to a `next` that applies `m` again around the
terminal step; observationally, a counting middleware listed twice over a base
resolving `0` yields exactly `2`. -/
theorem duplicate_middleware_runs_twice {α ε ρ : Type} (strVal : String → α)
    (dp : DataProvider α ε ρ) (m : DataProviderMethodMiddleware α ε ρ)
    (method : String) (args : List α) :
    dispatch strVal dp (regAll [m, m]) method args
        = m (fun _ => m (fun a2 => callJS (dp.strProp method) a2) args) args
      ∧ dispatch strVal (constProvider 0 : DataProvider α ε Nat)
          (regAll [countMw, countMw]) method args
        = Except.ok 2 :=
  ⟨rfl, rfl⟩

/-- Claim C10: argument plumbing of a non-empty chain.  Every wrapper closure
built for a non-empty suffix ignores the arguments it is applied to (first
conjunct); each middleware is invoked with the original caller arguments and a
`next` that runs the rest of the chain (second conjunct); the last (innermost)
middleware's `next` is the terminal step, which forwards exactly the arguments
that middleware passes to it to the base method — with no operation name
prepended (third conjunct); and dispatching a call through a non-empty chain
never consults the method-name-prepended initial argument list (fourth
conjunct: the right-hand side does not mention `strVal`).  Concretely, in
`[rewriteMw f, echoMw]` the second middleware still observes the original
arguments (fifth conjunct), while in `[passThru, rewriteMw f]` the base runs
with the innermost middleware's rewrite of the original arguments (sixth
conjunct). -/
theorem chain_argument_plumbing {α ε ρ : Type} (strVal : String → α)
    (dp : DataProvider α ε ρ) (dpl : DataProvider α ε (List α))
    (m : DataProviderMethodMiddleware α ε ρ)
    (ms : List (DataProviderMethodMiddleware α ε ρ))
    (f : List α → List α) (method : String) (args x y : List α) :
    invokeChain dp method (m :: ms) args x = invokeChain dp method (m :: ms) args y
      ∧ invokeChain dp method (m :: ms) args x
        = m (invokeChain dp method ms args) args
      ∧ invokeChain dp method [m] args x
        = m (fun a2 => callJS (dp.strProp method) a2) args
      ∧ dispatch strVal dp (regAll (m :: ms)) method args
        = m (invokeChain dp method ms args) args
      ∧ dispatch strVal dpl (regAll [rewriteMw f, echoMw]) method args
        = Except.ok args
      ∧ dispatch strVal dp (regAll [passThru, rewriteMw f]) method args
        = callJS (dp.strProp method) (f args) :=
  ⟨rfl, rfl, rfl, rfl, rfl, rfl⟩
